import Mathlib

/-!
Verification of the snapshot / diff-reconciliation core of
`automated-diff.py` (Pete1001/healthcheck-script).

Shallow embedding conventions:
* File contents, filenames and command strings are `List Char` (`Text`),
  so that byte-level identity of snapshot texts is plain list equality.
* The filesystem is a total map `Text → Option Text` from paths to
  contents; `open(p, "w").write(t)` is `fsWrite`, `open(p, "a").write(t)`
  is `fsAppend` (create-if-absent, then append).
* The interactive SSH channel is a byte buffer inside the session state;
  `ssh_shell.send` makes the remote output of the command available in the
  buffer and the `while recv_ready(): recv()` loop drains the buffer
  completely (the synchronous quiescence model the script relies on).
* `difflib.unified_diff` is external library code; it is modelled from the
  spec as a line-based LCS unified diff (`diffOps` / `unified_diff`): empty
  output exactly when the two line sequences are equal, otherwise a block
  starting with the `--- fromfile` / `+++ tofile` labels.  The hunk headers
  and context trimming of difflib are abstracted away; no claim depends on
  them.
-/

/-- File contents / path / command text as a list of characters. -/
abbrev Text := List Char

/-- The filesystem: a map from path to file contents. -/
abbrev FS := Text → Option Text

/-- `open(p, "w")` followed by `write(t)`: the file now holds exactly `t`. -/
def fsWrite (fs : FS) (p : Text) (t : Text) : FS :=
  fun q => if q = p then some t else fs q

/-- `open(p, "a")` followed by `write(t)`: create if absent, else append. -/
def fsAppend (fs : FS) (p : Text) (t : Text) : FS :=
  fun q => if q = p then some ((fs p).getD [] ++ t) else fs q

/-- Python `s.replace(old, new)` for one-character `old` and `new`. -/
def pyReplaceChar (old new : Char) (s : Text) : Text :=
  s.map (fun c => if c = old then new else c)

/-- Python `s.replace(old, "")` for a one-character `old`: drop it. -/
def pyDeleteChar (old : Char) (s : Text) : Text :=
  s.filter (fun c => ¬ c = old)

/-- `command.replace(' ', '_').replace('|', '').replace('/', '_')` as
computed in `ssh_command` (automated-diff.py line 129). -/
def command_safe (command : Text) : Text :=
  pyReplaceChar '/' '_' (pyDeleteChar '|' (pyReplaceChar ' ' '_' command))

/-- The same expression as recomputed in the diff phase of `main`
(automated-diff.py line 318). -/
def command_safe_diff (command : Text) : Text :=
  pyReplaceChar '/' '_' (pyDeleteChar '|' (pyReplaceChar ' ' '_' command))

/-- Modelled from the spec: `safeToken(command)` = command text with
space→`_`, `|`→removed, `/`→`_`, as a single left-to-right pass.  This is
the comparand for the refinement part of claim C2. -/
def safeTokenSpec (command : Text) : Text :=
  command.foldr
    (fun ch acc =>
      if ch = ' ' then '_' :: acc
      else if ch = '|' then acc
      else if ch = '/' then '_' :: acc
      else ch :: acc) []

/-- The whitespace characters of Python `str.strip()`. -/
def isPySpace (c : Char) : Bool :=
  c = ' ' ∨ c = '\t' ∨ c = '\n' ∨ c = '\r' ∨ c = '\x0b' ∨ c = '\x0c'

/-- Python `s.strip()`: drop leading and trailing whitespace. -/
def pyStrip (s : Text) : Text :=
  ((s.dropWhile isPySpace).reverse.dropWhile isPySpace).reverse

/-- `os.path.join(a, b)` for a relative `b` and `a` without trailing
slash: `a + "/" + b`. -/
def pathJoin (a b : Text) : Text :=
  a ++ '/' :: b

/-- `SEPARATOR = '-' * 60` (automated-diff.py line 40). -/
def SEPARATOR : Text := List.replicate 60 '-'

/-- Per-command snapshot path written by `ssh_command` (line 130):
`os.path.join(ticket_number, f"{host}-{command_safe}.{health_check_type}")`. -/
def snapshot_file (ticket host command hct : Text) : Text :=
  pathJoin ticket (host ++ '-' :: (command_safe command ++ '.' :: hct))

/-- Pre-phase snapshot path looked up by the diff phase (line 319). -/
def pre_file (ticket host command : Text) : Text :=
  pathJoin ticket (host ++ '-' :: (command_safe_diff command ++ ".pre".data))

/-- Post-phase snapshot path looked up by the diff phase (line 320). -/
def post_file (ticket host command : Text) : Text :=
  pathJoin ticket (host ++ '-' :: (command_safe_diff command ++ ".post".data))

/-- The per-command snapshot write (lines 129-133): `open(output_file, "w")`
then `out.write(output)`. -/
def writeSnapshot (fs : FS) (ticket host command hct output : Text) : FS :=
  fsWrite fs (snapshot_file ticket host command hct) output

/-- The consolidated per-host path chosen at lines 102-106:
`{host}.precheck` for phase pre, `{host}.postcheck` for phase post,
`None` otherwise. -/
def consolidated_file (ticket host hct : Text) : Option Text :=
  if hct = "pre".data then some (pathJoin ticket (host ++ ".precheck".data))
  else if hct = "post".data then some (pathJoin ticket (host ++ ".postcheck".data))
  else none

/-- One consolidated-file record (line 142):
`f"Command: {command}\n{output}\n{SEPARATOR}\n"`. -/
def consolidatedEntry (command output : Text) : Text :=
  "Command: ".data ++ command ++ '\n' :: (output ++ '\n' :: (SEPARATOR ++ ['\n']))

/-- Python `f.readlines()`: split the text into lines, each line keeping
its terminating newline; a final segment without a newline is kept as a
last line; the empty text gives no lines.  `acc` holds the (reversed)
characters of the line currently being scanned. -/
def readlinesAux (acc : Text) : Text → List Text
  | [] => if acc = [] then [] else [acc.reverse]
  | c :: rest =>
    if c = '\n' then (acc.reverse ++ ['\n']) :: readlinesAux [] rest
    else readlinesAux (c :: acc) rest

/-- Python `f.readlines()` on the whole file contents. -/
def readlines (t : Text) : List Text :=
  readlinesAux [] t

/-- One element of a line diff: a line kept by both sides, deleted from
the first, or inserted by the second. -/
inductive DiffOp where
  | keep (l : Text)
  | del (l : Text)
  | ins (l : Text)
deriving DecidableEq

/-- Whether a diff element is a kept (common) line. -/
def DiffOp.isKeep : DiffOp → Bool
  | .keep _ => true
  | _ => false

/-- Length of a longest common subsequence of two line sequences. -/
def lcsLen : List Text → List Text → Nat
  | [], _ => 0
  | _ :: _, [] => 0
  | x :: xs, y :: ys =>
    if x = y then lcsLen xs ys + 1
    else max (lcsLen xs (y :: ys)) (lcsLen (x :: xs) ys)
termination_by a b => a.length + b.length

/-- Modelled from the spec: the line-based LCS diff underlying
`difflib.unified_diff` — an edit script turning the first line sequence
into the second, keeping a longest common subsequence. -/
def diffOps : List Text → List Text → List DiffOp
  | [], [] => []
  | [], y :: ys => .ins y :: diffOps [] ys
  | x :: xs, [] => .del x :: diffOps xs []
  | x :: xs, y :: ys =>
    if x = y then .keep x :: diffOps xs ys
    else if lcsLen (x :: xs) ys ≤ lcsLen xs (y :: ys) then
      .del x :: diffOps xs (y :: ys)
    else
      .ins y :: diffOps (x :: xs) ys
termination_by a b => a.length + b.length

/-- Rendering of one diff element, difflib style: a context line is
prefixed by a space, a deletion by `-`, an insertion by `+`; the line
keeps its own newline terminator. -/
def opLine : DiffOp → Text
  | .keep l => ' ' :: l
  | .del l => '-' :: l
  | .ins l => '+' :: l

/-- Modelled from the spec: `difflib.unified_diff(a, b, fromfile, tofile)`
joined to a single text.  Identical inputs yield the empty text (difflib
yields no lines at all when every opcode is `equal`); otherwise the
`--- fromfile` / `+++ tofile` header lines are followed by the rendered
edit script.  Hunk headers and context trimming are abstracted away. -/
def unified_diff (a b : List Text) (fromfile tofile : Text) : Text :=
  let ops := diffOps a b
  if ops.all DiffOp.isKeep then []
  else
    "--- ".data ++ fromfile ++ ['\n'] ++ ("+++ ".data ++ tofile ++ ['\n']
      ++ (ops.map opLine).flatten)

/-- The `[INFO] No differences detected.` line written at line 341. -/
def noDiffMarker : Text := "[INFO] No differences detected.\n".data

/-- The warning section written when the pre file is absent (line 324). -/
def preMissingMarker (command : Text) : Text :=
  command ++ " - [WARNING] Pre file not found.\n".data ++ SEPARATOR ++ ['\n']

/-- The warning section written when the post file is absent (line 329). -/
def postMissingMarker (command : Text) : Text :=
  command ++ " - [WARNING] Post file not found.\n".data ++ SEPARATOR ++ ['\n']

/-- The text appended to the `{host}.out` report for one command by the
loop body at lines 317-342: a missing-file warning if the pre or post
snapshot is absent, otherwise `Command: {command}\n` followed by the
unified diff of the two snapshot texts (or the no-differences marker when
the diff is empty) and the separator. -/
def diffSection (fs : FS) (ticket host command : Text) : Text :=
  match fs (pre_file ticket host command) with
  | none => preMissingMarker command
  | some preText =>
    match fs (post_file ticket host command) with
    | none => postMissingMarker command
    | some postText =>
      let d := unified_diff (readlines preText) (readlines postText)
        (pre_file ticket host command) (post_file ticket host command)
      "Command: ".data ++ command ++ '\n' ::
        ((if d = [] then noDiffMarker else d) ++ '\n' :: (SEPARATOR ++ ['\n']))

/-- The `for command in commands` loop of the diff phase (lines 317-342),
threading the contents of the opened `{host}.out` file. -/
def diffReportLoop (fs : FS) (ticket host : Text) : List Text → Text → Text
  | [], acc => acc
  | c :: cs, acc => diffReportLoop fs ticket host cs (acc ++ diffSection fs ticket host c)

/-- The full contents of the `{host}.out` diff report for one host
(the file is opened with mode `w` at line 315, so it starts empty). -/
def diffReport (fs : FS) (ticket host : Text) (commands : List Text) : Text :=
  diffReportLoop fs ticket host commands []

/-- Outcome of `ssh.connect(host, ...)` (line 78): success, or one of the
exceptions caught by the handlers at lines 151-155. -/
inductive ConnectResult where
  | ok
  | authFail
  | noValidConn
deriving DecidableEq

/-- The remote side of one host: connection outcome, whether the invoked
shell reports active, and the text each command makes available on the
channel. -/
structure Remote where
  connect : ConnectResult
  shellActive : Bool
  output : Text → Text

/-- State threaded through `ssh_command`: the filesystem, whether the SSH
connection is currently open, and the channel buffer of bytes available
to `recv`. -/
structure St where
  fs : FS
  connOpen : Bool
  buffer : Text

/-- Error string returned at line 152 on `AuthenticationException`. -/
def authFailMsg : Text :=
  "[ERROR] Authentication failed. Please check your username or password.".data

/-- Error string returned at line 155 on `NoValidConnectionsError`. -/
def unreachableMsg : Text :=
  "[ERROR] Unable to connect to host. Check if the device is reachable.".data

/-- Error string returned at line 158 when the `RuntimeError` of line 87
(`SSH shell session is not active.`) reaches the generic handler. -/
def shellInactiveMsg : Text :=
  "[ERROR] ".data ++ "SSH shell session is not active.".data

/-- The `for command in commands` loop of `ssh_command` (lines 112-145).
For each command: `send` makes the command output available after the
residual buffer contents; the `if recv_ready(): while recv_ready():`
loop drains the buffer completely, giving the captured text; a captured
text that strips to empty is only logged and skipped (lines 124-126);
otherwise the per-command snapshot is written with mode `w` and the
consolidated record appended with mode `a` (lines 128-145).  Returns the
final state and the list of captured texts, in command order. -/
def runCommands (r : Remote) (ticket host hct : Text) (co : Option Text) :
    St → List Text → St × List Text
  | st, [] => (st, [])
  | st, c :: cs =>
    let captured := st.buffer ++ r.output c
    let st1 : St := { st with buffer := [] }
    let st2 : St :=
      if pyStrip captured = [] then st1
      else
        let afterSnap : St :=
          { st1 with fs := writeSnapshot st1.fs ticket host c hct captured }
        match co with
        | none => afterSnap
        | some cp =>
          { afterSnap with
              fs := fsAppend afterSnap.fs cp (consolidatedEntry c captured) }
    let rest := runCommands r ticket host hct co st2 cs
    (rest.1, captured :: rest.2)

/-- `ssh_command(host, username, password, commands, ticket_number,
health_check_type)` (lines 69-158).  Connecting opens the connection;
an inactive shell raises the `RuntimeError` of line 87, which the generic
handler at line 157 turns into an error return — with no `ssh.close()` on
that path.  On the success path the initial flush and the `clear logging`
flush (lines 90-99) leave the channel buffer empty, the command loop
runs, and `ssh.close()` (line 147) closes the connection.  The result is
the returned error (`None` on success) and the final state.  Credentials
are opaque and not modelled. -/
def ssh_command (r : Remote) (host : Text) (commands : List Text)
    (ticket hct : Text) (st0 : St) : Option Text × St :=
  match r.connect with
  | .authFail => (some authFailMsg, st0)
  | .noValidConn => (some unreachableMsg, st0)
  | .ok =>
    let st1 : St := { st0 with connOpen := true }
    if r.shellActive then
      let st2 : St := { st1 with buffer := [] }
      let res := runCommands r ticket host hct (consolidated_file ticket host hct) st2 commands
      (none, { res.1 with connOpen := false })
    else
      (some shellInactiveMsg, st1)

/-- The error outcome of `ssh_command` as a function of the remote alone
(the returned error string never depends on the threaded state). -/
def sshErr (r : Remote) : Option Text :=
  match r.connect with
  | .authFail => some authFailMsg
  | .noValidConn => some unreachableMsg
  | .ok => if r.shellActive then none else some shellInactiveMsg

/-- The `for host in hosts` loop of `main` (lines 302-308): run
`ssh_command` for each host in turn, appending the host to
`unreachable_hosts` whenever an error string is returned.  `envOf` gives
each host its remote behaviour; the accumulator is the failed list so far
and the threaded state. -/
def processHosts (envOf : Text → Remote) (commands : List Text)
    (ticket hct : Text) : List Text → List Text × St → List Text × St
  | [], acc => acc
  | h :: hs, (failed, st) =>
    let res := ssh_command (envOf h) h commands ticket hct st
    let failed2 := match res.1 with
      | some _ => failed ++ [h]
      | none => failed
    processHosts envOf commands ticket hct hs (failed2, res.2)

/-- The end-of-run summary printed at lines 345-358. -/
structure Summary where
  processedCount : Nat
  failedCount : Nat
  failedHosts : List Text
deriving DecidableEq

/-- `processed_count = len(hosts) - len(unreachable_hosts)` and
`failed_count = len(unreachable_hosts)` (lines 348-349), with the failed
hosts listed at lines 355-356. -/
def summaryOf (hosts failed : List Text) : Summary :=
  { processedCount := hosts.length - failed.length
    failedCount := failed.length
    failedHosts := failed }

/-- The three sequential `replace` calls equal the single-pass per-character
mapping described by the spec. -/
theorem command_safe_eq_spec (c : Text) : command_safe c = safeTokenSpec c := by
  induction c with
  | nil => rfl
  | cons ch cs ih =>
    by_cases hsp : ch = ' '
    · subst hsp
      simpa [command_safe, safeTokenSpec, pyReplaceChar, pyDeleteChar,
        List.filter_cons] using ih
    · by_cases hpipe : ch = '|'
      · subst hpipe
        simpa [command_safe, safeTokenSpec, pyReplaceChar, pyDeleteChar,
          List.filter_cons] using ih
      · by_cases hsl : ch = '/'
        · subst hsl
          simpa [command_safe, safeTokenSpec, pyReplaceChar, pyDeleteChar,
            List.filter_cons] using ih
        · simpa [command_safe, safeTokenSpec, pyReplaceChar, pyDeleteChar,
            List.filter_cons, hsp, hpipe, hsl] using ih

/-- C2: `safeToken` is a pure, deterministic function of the command string
(replace each space by `_`, remove each `|`, replace each `/` by `_`), and
the snapshot-writing path of `ssh_command` and the diff-lookup path of
`main` apply exactly the same mapping, so an identical command string
yields the identical snapshot filename in both phases. -/
theorem safeToken_write_lookup_agree :
    ∀ command : Text,
      command_safe command = command_safe_diff command ∧
      command_safe command = safeTokenSpec command ∧
      (∀ ticket host : Text,
        snapshot_file ticket host command "pre".data =
          pre_file ticket host command ∧
        snapshot_file ticket host command "post".data =
          post_file ticket host command) := by
  intro command
  refine ⟨rfl, command_safe_eq_spec command, ?_⟩
  intro ticket host
  constructor <;> rfl

/-- C7: per-command snapshot writing is last-write-wins — writing the same
(host, phase, command) key twice leaves the file holding exactly the second
content, and (for a non-empty first content) not the concatenation of the
two. -/
theorem snapshot_overwrite :
    ∀ (fs : FS) (ticket host command hct o1 o2 : Text),
      (writeSnapshot (writeSnapshot fs ticket host command hct o1)
          ticket host command hct o2) (snapshot_file ticket host command hct) =
        some o2 ∧
      (o1 ≠ [] →
        (writeSnapshot (writeSnapshot fs ticket host command hct o1)
            ticket host command hct o2) (snapshot_file ticket host command hct) ≠
          some (o1 ++ o2)) := by
  intro fs ticket host command hct o1 o2
  constructor
  · simp [writeSnapshot, fsWrite]
  · intro h1 heq
    simp [writeSnapshot, fsWrite] at heq
    have hlen := congrArg List.length heq
    simp at hlen
    exact h1 hlen

/-- Instance of `snapshot_overwrite` at a concrete key and two concrete
contents, discharging the non-empty hypothesis. -/
theorem snapshot_overwrite_w :
    ("old".data : Text) ≠ [] ∧
      (writeSnapshot (writeSnapshot (fun _ => none) "T1".data "r1".data
          "show clock".data "pre".data "old".data)
        "T1".data "r1".data "show clock".data "pre".data "new".data)
        (snapshot_file "T1".data "r1".data "show clock".data "pre".data) ≠
        some ("old".data ++ "new".data) :=
  ⟨by decide,
    (snapshot_overwrite (fun _ => none) "T1".data "r1".data "show clock".data
      "pre".data "old".data "new".data).2 (by decide)⟩

/-- Concatenating the lines produced by `readlinesAux` recovers the
pending accumulator followed by the remaining input. -/
theorem readlinesAux_flatten (t : Text) :
    ∀ acc : Text, (readlinesAux acc t).flatten = acc.reverse ++ t := by
  induction t with
  | nil =>
    intro acc
    by_cases h : acc = []
    · subst h; simp [readlinesAux]
    · simp [readlinesAux, h]
  | cons c rest ih =>
    intro acc
    by_cases h : c = '\n'
    · subst h
      simp [readlinesAux, ih]
    · simp [readlinesAux, h, ih]

/-- Concatenating the lines of `readlines` recovers the text: line
splitting is lossless. -/
theorem readlines_flatten (t : Text) : (readlines t).flatten = t := by
  simpa using readlinesAux_flatten t []

/-- Two texts with the same line decomposition are equal. -/
theorem readlines_inj {a b : Text} (h : readlines a = readlines b) : a = b := by
  have := congrArg List.flatten h
  rwa [readlines_flatten, readlines_flatten] at this

/-- The edit script consists only of kept lines exactly when the two line
sequences are equal. -/
theorem diffOps_allKeep_iff :
    ∀ a b : List Text, ((diffOps a b).all DiffOp.isKeep = true) ↔ a = b := by
  intro a b
  induction a, b using diffOps.induct with
  | case1 => simp [diffOps]
  | case2 y ys => simp [diffOps, DiffOp.isKeep]
  | case3 x xs => simp [diffOps, DiffOp.isKeep]
  | case4 xs y ys ih =>
    simpa [diffOps, DiffOp.isKeep] using ih
  | case5 x xs y ys hne hle ih =>
    simp [diffOps, hne, hle, DiffOp.isKeep]
  | case6 x xs y ys hne hgt ih =>
    simp [diffOps, hne, hgt, DiffOp.isKeep]

/-- The modelled unified diff is the empty text exactly when the two line
sequences are equal. -/
theorem unified_diff_eq_nil_iff (a b : List Text) (f t : Text) :
    unified_diff a b f t = [] ↔ a = b := by
  by_cases h : (diffOps a b).all DiffOp.isKeep = true
  · have he := (diffOps_allKeep_iff a b).mp h
    simp only [unified_diff]
    rw [if_pos h]
    simp [he]
  · have hne : a ≠ b := fun he => h ((diffOps_allKeep_iff a b).mpr he)
    simp only [unified_diff]
    rw [if_neg h]
    simp [hne]

/-- For distinct line sequences the modelled unified diff is the labelled
header block followed by the rendered edit script. -/
theorem unified_diff_shape (a b : List Text) (f t : Text) (h : a ≠ b) :
    unified_diff a b f t =
      "--- ".data ++ f ++ ['\n'] ++ ("+++ ".data ++ t ++ ['\n']
        ++ ((diffOps a b).map opLine).flatten) := by
  have hk : ¬ (diffOps a b).all DiffOp.isKeep = true :=
    fun hk => h ((diffOps_allKeep_iff a b).mp hk)
  simp only [unified_diff]
  rw [if_neg hk]

/-- C1: when both the pre and the post snapshot of a command exist, the
diff report section for that command is the explicit no-differences
marker exactly when the two snapshot texts are identical byte sequences;
otherwise the section embeds the non-empty unified diff whose header
lines name the two snapshot paths. -/
theorem diffSection_no_differences_iff :
    ∀ (fs : FS) (ticket host command preText postText : Text),
      fs (pre_file ticket host command) = some preText →
      fs (post_file ticket host command) = some postText →
      ((diffSection fs ticket host command =
          "Command: ".data ++ command ++ '\n' ::
            (noDiffMarker ++ '\n' :: (SEPARATOR ++ ['\n']))) ↔
        preText = postText) ∧
      (preText ≠ postText →
        unified_diff (readlines preText) (readlines postText)
            (pre_file ticket host command) (post_file ticket host command) ≠ [] ∧
        diffSection fs ticket host command =
          "Command: ".data ++ command ++ '\n' ::
            (unified_diff (readlines preText) (readlines postText)
                (pre_file ticket host command) (post_file ticket host command) ++
              '\n' :: (SEPARATOR ++ ['\n'])) ∧
        unified_diff (readlines preText) (readlines postText)
            (pre_file ticket host command) (post_file ticket host command) =
          "--- ".data ++ pre_file ticket host command ++ ['\n'] ++
            ("+++ ".data ++ post_file ticket host command ++ ['\n'] ++
              ((diffOps (readlines preText) (readlines postText)).map
                  opLine).flatten)) := by
  intro fs ticket host command preText postText hpre hpost
  have hsec : diffSection fs ticket host command =
      "Command: ".data ++ command ++ '\n' ::
        ((if unified_diff (readlines preText) (readlines postText)
              (pre_file ticket host command) (post_file ticket host command) = []
          then noDiffMarker
          else unified_diff (readlines preText) (readlines postText)
            (pre_file ticket host command) (post_file ticket host command)) ++
          '\n' :: (SEPARATOR ++ ['\n'])) := by
    simp [diffSection, hpre, hpost]
  have hiff : (unified_diff (readlines preText) (readlines postText)
      (pre_file ticket host command) (post_file ticket host command) = []) ↔
      preText = postText := by
    rw [unified_diff_eq_nil_iff]
    exact ⟨readlines_inj, fun h => by rw [h]⟩
  by_cases he : preText = postText
  · refine ⟨⟨fun _ => he, fun _ => ?_⟩, fun hne => absurd he hne⟩
    rw [hsec, if_pos (hiff.mpr he)]
  · have hdne : unified_diff (readlines preText) (readlines postText)
        (pre_file ticket host command) (post_file ticket host command) ≠ [] :=
      fun h => he (hiff.mp h)
    have hshape := unified_diff_shape (readlines preText) (readlines postText)
      (pre_file ticket host command) (post_file ticket host command)
      (fun h => he (readlines_inj h))
    have hsec2 : diffSection fs ticket host command =
        "Command: ".data ++ command ++ '\n' ::
          (unified_diff (readlines preText) (readlines postText)
              (pre_file ticket host command) (post_file ticket host command) ++
            '\n' :: (SEPARATOR ++ ['\n'])) := by
      rw [hsec, if_neg hdne]
    refine ⟨⟨fun hmark => ?_, fun h => absurd h he⟩,
      fun _ => ⟨hdne, hsec2, hshape⟩⟩
    exfalso
    have h0 := hmark.symm.trans hsec2
    have h2 := List.append_cancel_left h0
    have h4 : noDiffMarker ++ '\n' :: (SEPARATOR ++ ['\n']) =
        unified_diff (readlines preText) (readlines postText)
            (pre_file ticket host command) (post_file ticket host command) ++
          '\n' :: (SEPARATOR ++ ['\n']) := (List.cons.inj h2).2
    have h5 := List.append_cancel_right h4
    have h6 := congrArg List.head? h5
    rw [hshape] at h6
    have h7 : List.head? noDiffMarker = some '[' := rfl
    have h8 : List.head? ("--- ".data ++ pre_file ticket host command ++ ['\n'] ++
        ("+++ ".data ++ post_file ticket host command ++ ['\n'] ++
          ((diffOps (readlines preText) (readlines postText)).map opLine).flatten)) =
        some '-' := rfl
    rw [h7, h8] at h6
    exact absurd h6 (by decide)

/-- A concrete snapshot store holding a pre and a post snapshot (with
different texts) for command `c` of host `h` under ticket `T`. -/
def fsBoth : FS :=
  fun q =>
    if q = pre_file "T".data "h".data "c".data then some "a\n".data
    else if q = post_file "T".data "h".data "c".data then some "b\n".data
    else none

/-- Instance of `diffSection_no_differences_iff` at a concrete store with
two differing snapshot texts. -/
theorem diffSection_no_differences_iff_w :
    fsBoth (pre_file "T".data "h".data "c".data) = some "a\n".data ∧
    fsBoth (post_file "T".data "h".data "c".data) = some "b\n".data ∧
    (((diffSection fsBoth "T".data "h".data "c".data =
        "Command: ".data ++ "c".data ++ '\n' ::
          (noDiffMarker ++ '\n' :: (SEPARATOR ++ ['\n']))) ↔
      "a\n".data = "b\n".data) ∧
    (("a\n".data : Text) ≠ "b\n".data →
      unified_diff (readlines "a\n".data) (readlines "b\n".data)
          (pre_file "T".data "h".data "c".data)
          (post_file "T".data "h".data "c".data) ≠ [] ∧
      diffSection fsBoth "T".data "h".data "c".data =
        "Command: ".data ++ "c".data ++ '\n' ::
          (unified_diff (readlines "a\n".data) (readlines "b\n".data)
              (pre_file "T".data "h".data "c".data)
              (post_file "T".data "h".data "c".data) ++
            '\n' :: (SEPARATOR ++ ['\n'])) ∧
      unified_diff (readlines "a\n".data) (readlines "b\n".data)
          (pre_file "T".data "h".data "c".data)
          (post_file "T".data "h".data "c".data) =
        "--- ".data ++ pre_file "T".data "h".data "c".data ++ ['\n'] ++
          ("+++ ".data ++ post_file "T".data "h".data "c".data ++ ['\n'] ++
            ((diffOps (readlines "a\n".data)
                (readlines "b\n".data)).map opLine).flatten))) :=
  ⟨by decide, by decide,
    diffSection_no_differences_iff fsBoth "T".data "h".data "c".data
      "a\n".data "b\n".data (by decide) (by decide)⟩

/-- The sequential report-writing loop appends exactly one section per
command, in the original command order. -/
theorem diffReportLoop_eq (fs : FS) (ticket host : Text) :
    ∀ (cs : List Text) (acc : Text),
      diffReportLoop fs ticket host cs acc =
        acc ++ (cs.map (diffSection fs ticket host)).flatten := by
  intro cs
  induction cs with
  | nil => intro acc; simp [diffReportLoop]
  | cons c rest ih =>
    intro acc
    simp [diffReportLoop, ih]

/-- C3: the diff report is the concatenation of exactly one section per
command, in original command order, whatever snapshots are missing; a
command whose pre snapshot is absent gets the pre-missing marker section,
a command whose post snapshot is absent gets the post-missing marker
section, and in both cases the rest of the report is still generated. -/
theorem diffReport_missing_markers :
    ∀ (fs : FS) (ticket host : Text) (cs : List Text) (c c2 ptxt : Text),
      fs (pre_file ticket host c) = none →
      fs (pre_file ticket host c2) = some ptxt →
      fs (post_file ticket host c2) = none →
      diffReport fs ticket host cs =
        (cs.map (diffSection fs ticket host)).flatten ∧
      (cs.map (diffSection fs ticket host)).length = cs.length ∧
      diffSection fs ticket host c = preMissingMarker c ∧
      diffSection fs ticket host c2 = postMissingMarker c2 := by
  intro fs ticket host cs c c2 ptxt hpre hpre2 hpost2
  refine ⟨by simpa [diffReport] using diffReportLoop_eq fs ticket host cs [],
    by simp, ?_, ?_⟩
  · simp [diffSection, hpre]
  · simp [diffSection, hpre2, hpost2]

/-- A concrete snapshot store holding only a pre snapshot for command `c`
of host `h` under ticket `T` (so the pre file of `d` is missing and the
post file of `c` is missing). -/
def fsPreOnly : FS :=
  fun q =>
    if q = pre_file "T".data "h".data "c".data then some "a\n".data
    else none

/-- Instance of `diffReport_missing_markers` on a two-command report where
the first command is missing its pre snapshot and the second is missing
its post snapshot. -/
theorem diffReport_missing_markers_w :
    fsPreOnly (pre_file "T".data "h".data "d".data) = none ∧
    fsPreOnly (pre_file "T".data "h".data "c".data) = some "a\n".data ∧
    fsPreOnly (post_file "T".data "h".data "c".data) = none ∧
    (diffReport fsPreOnly "T".data "h".data ["d".data, "c".data] =
        ((["d".data, "c".data].map
            (diffSection fsPreOnly "T".data "h".data)).flatten) ∧
      (["d".data, "c".data].map
          (diffSection fsPreOnly "T".data "h".data)).length =
        (["d".data, "c".data] : List Text).length ∧
      diffSection fsPreOnly "T".data "h".data "d".data =
        preMissingMarker "d".data ∧
      diffSection fsPreOnly "T".data "h".data "c".data =
        postMissingMarker "c".data) :=
  ⟨by decide, by decide, by decide,
    diffReport_missing_markers fsPreOnly "T".data "h".data
      ["d".data, "c".data] "d".data "c".data "a\n".data
      (by decide) (by decide) (by decide)⟩

/-- The error string returned by `ssh_command` depends only on the remote
behaviour, never on the threaded state. -/
theorem ssh_command_err (r : Remote) (host : Text) (cs : List Text)
    (ticket hct : Text) (st : St) :
    (ssh_command r host cs ticket hct st).1 = sshErr r := by
  cases hc : r.connect with
  | authFail => simp [ssh_command, sshErr, hc]
  | noValidConn => simp [ssh_command, sshErr, hc]
  | ok =>
    by_cases hs : r.shellActive <;> simp [ssh_command, sshErr, hc, hs]

/-- The host loop records exactly the hosts whose `ssh_command` returned
an error, in host order, after whatever was already accumulated. -/
theorem processHosts_failed (envOf : Text → Remote) (cmds : List Text)
    (ticket hct : Text) :
    ∀ (hs : List Text) (failed : List Text) (st : St),
      (processHosts envOf cmds ticket hct hs (failed, st)).1 =
        failed ++ hs.filter (fun h => (sshErr (envOf h)).isSome) := by
  intro hs
  induction hs with
  | nil => intro failed st; simp [processHosts]
  | cons h rest ih =>
    intro failed st
    have herr := ssh_command_err (envOf h) h cmds ticket hct st
    cases he : sshErr (envOf h) with
    | none =>
      rw [he] at herr
      simp [processHosts, herr, ih, he]
    | some e =>
      rw [he] at herr
      simp [processHosts, herr, ih, he]

/-- Splitting a list by a boolean predicate preserves the total length. -/
theorem filter_length_split (p : Text → Bool) (l : List Text) :
    (l.filter p).length + (l.filter (fun x => ! p x)).length = l.length := by
  induction l with
  | nil => simp
  | cons x xs ih =>
    by_cases hx : p x <;> simp [List.filter_cons, hx] <;> omega

/-- C4: a per-host `ssh_command` failure of any kind is appended to the
failed list and the loop proceeds with every subsequent host; the
end-of-run summary reports the number of successfully processed hosts,
the number of failed hosts, and the failed host list. -/
theorem batch_failures_recorded :
    ∀ (envOf : Text → Remote) (cmds : List Text) (ticket hct : Text)
      (hosts hs1 hs2 : List Text) (st : St),
      (processHosts envOf cmds ticket hct hosts ([], st)).1 =
        hosts.filter (fun h => (sshErr (envOf h)).isSome) ∧
      (processHosts envOf cmds ticket hct (hs1 ++ hs2) ([], st)).1 =
        (processHosts envOf cmds ticket hct hs1 ([], st)).1 ++
          hs2.filter (fun h => (sshErr (envOf h)).isSome) ∧
      summaryOf hosts (processHosts envOf cmds ticket hct hosts ([], st)).1 =
        { processedCount :=
            (hosts.filter (fun h => (sshErr (envOf h)).isNone)).length
          failedCount :=
            (hosts.filter (fun h => (sshErr (envOf h)).isSome)).length
          failedHosts :=
            hosts.filter (fun h => (sshErr (envOf h)).isSome) } := by
  intro envOf cmds ticket hct hosts hs1 hs2 st
  refine ⟨by simpa using processHosts_failed envOf cmds ticket hct hosts [] st,
    ?_, ?_⟩
  · rw [processHosts_failed envOf cmds ticket hct (hs1 ++ hs2) [] st,
      processHosts_failed envOf cmds ticket hct hs1 [] st]
    simp [List.filter_append]
  · rw [processHosts_failed envOf cmds ticket hct hosts [] st]
    have hsplit := filter_length_split (fun h => (sshErr (envOf h)).isSome) hosts
    have hname : hosts.filter (fun h => ! (sshErr (envOf h)).isSome) =
        hosts.filter (fun h => (sshErr (envOf h)).isNone) := by
      apply List.filter_congr
      intro x _
      cases sshErr (envOf x) <;> rfl
    rw [hname] at hsplit
    simp [summaryOf, Summary.mk.injEq]
    omega

/-- C5 (code divergence): a host whose connection succeeds but whose
invoked shell is inactive makes `ssh_command` return via the generic
exception handler without ever calling `ssh.close()` — the connection is
still open at exit, contradicting the release-on-every-exit-path claim. -/
theorem shell_inactive_leaves_connection_open :
    (ssh_command { connect := .ok, shellActive := false, output := fun _ => [] }
        "h".data ["c".data] "T".data "pre".data
        { fs := fun _ => none, connOpen := false, buffer := [] }).1 =
      some shellInactiveMsg ∧
    (ssh_command { connect := .ok, shellActive := false, output := fun _ => [] }
        "h".data ["c".data] "T".data "pre".data
        { fs := fun _ => none, connOpen := false, buffer := [] }).2.connOpen =
      true := by
  exact ⟨rfl, rfl⟩

/-- Through the command loop, the channel buffer is empty at every send:
each iteration drains the buffer completely, so starting from a drained
buffer every captured text is exactly the output of its own command, and
the loop ends with a drained buffer. -/
theorem runCommands_drained :
    ∀ (r : Remote) (ticket host hct : Text) (co : Option Text)
      (cs : List Text) (st : St), st.buffer = [] →
      (runCommands r ticket host hct co st cs).2 = cs.map r.output ∧
      (runCommands r ticket host hct co st cs).1.buffer = [] := by
  intro r ticket host hct co cs
  induction cs with
  | nil => intro st hb; simp [runCommands, hb]
  | cons c cs ih =>
    intro st hb
    simp only [runCommands, hb, List.nil_append, List.map_cons]
    by_cases hskip : pyStrip (r.output c) = []
    · rw [if_pos hskip]
      have h2 := ih { fs := st.fs, connOpen := st.connOpen, buffer := [] } rfl
      exact ⟨by simpa using h2.1, h2.2⟩
    · rw [if_neg hskip]
      cases co with
      | none =>
        have h2 := ih { fs := writeSnapshot st.fs ticket host c hct (r.output c), connOpen := st.connOpen, buffer := [] } rfl
        exact ⟨by simpa using h2.1, h2.2⟩
      | some cp =>
        have h2 := ih { fs := fsAppend (writeSnapshot st.fs ticket host c hct (r.output c)) cp (consolidatedEntry c (r.output c)), connOpen := st.connOpen, buffer := [] } rfl
        exact ⟨by simpa using h2.1, h2.2⟩

/-- C9: the command loop starts from a fully drained channel buffer (the
initial flush and the clear-logging flush), and each iteration drains the
buffer before the next send; consequently the captured text of every
command is exactly its own remote output — never contaminated by residue
of an earlier command — and the commands are sent strictly in sequence by
the single fold over the command list. -/
theorem command_outputs_isolated :
    ∀ (r : Remote) (ticket host hct : Text) (co : Option Text)
      (cs : List Text) (st : St),
      (runCommands r ticket host hct co { st with buffer := [] } cs).2 =
        cs.map r.output ∧
      (runCommands r ticket host hct co { st with buffer := [] } cs).1.buffer =
        [] := by
  intro r ticket host hct co cs st
  exact runCommands_drained r ticket host hct co cs { st with buffer := [] } rfl

/-- The consolidated records contributed by one batch: one
header/output/separator entry per command whose captured output does not
strip to empty, in original command order. -/
def consEntries (r : Remote) (cs : List Text) : Text :=
  ((cs.filter (fun c => ! (pyStrip (r.output c)).isEmpty)).map
    (fun c => consolidatedEntry c (r.output c))).flatten

/-- `pathJoin` with a fixed directory is injective in the file name. -/
theorem pathJoin_inj_right {a x y : Text} (h : pathJoin a x = pathJoin a y) :
    x = y := by
  unfold pathJoin at h
  exact (List.cons.inj (List.append_cancel_left h)).2

/-- File names that continue a common prefix with `.` and with `-` differ. -/
theorem dot_dash_ne {h u v : Text} : h ++ '.' :: u ≠ h ++ '-' :: v := by
  intro he
  exact absurd (List.cons.inj (List.append_cancel_left he)).1 (by decide)

/-- The consolidated per-host file never collides with any per-command
snapshot file of the same ticket and host: after `{ticket}/{host}` the
former continues with `.`, the latter with `-`. -/
theorem consolidated_ne_snapshot {ticket host hct cp : Text}
    (h : consolidated_file ticket host hct = some cp) :
    ∀ c hct2 : Text, cp ≠ snapshot_file ticket host c hct2 := by
  intro c hct2 heq
  unfold consolidated_file at h
  by_cases h1 : hct = "pre".data
  · rw [if_pos h1, Option.some.injEq] at h
    subst h
    have := pathJoin_inj_right heq
    exact dot_dash_ne this
  · rw [if_neg h1] at h
    by_cases h2 : hct = "post".data
    · rw [if_pos h2, Option.some.injEq] at h
      subst h
      have := pathJoin_inj_right heq
      exact dot_dash_ne this
    · rw [if_neg h2] at h
      exact Option.noConfusion h

/-- Contents of the consolidated file after the command loop: unchanged if
every command was skipped for empty output, otherwise the prior contents
(empty for a fresh file) followed by the batch entries in order. -/
theorem runCommands_consolidated (r : Remote) (ticket host hct cp : Text)
    (hcp : ∀ c : Text, cp ≠ snapshot_file ticket host c hct) :
    ∀ (cs : List Text) (st : St), st.buffer = [] →
      (runCommands r ticket host hct (some cp) st cs).1.fs cp =
        if (cs.filter (fun c => ! (pyStrip (r.output c)).isEmpty)).isEmpty
        then st.fs cp
        else some ((st.fs cp).getD [] ++ consEntries r cs) := by
  intro cs
  induction cs with
  | nil => intro st hb; simp [runCommands, consEntries]
  | cons c cs ih =>
    intro st hb
    by_cases hskip : pyStrip (r.output c) = []
    · have hfilter : (c :: cs).filter (fun c => ! (pyStrip (r.output c)).isEmpty) =
          cs.filter (fun c => ! (pyStrip (r.output c)).isEmpty) := by
        simp [List.filter_cons, hskip]
      simp only [runCommands, hb, List.nil_append]
      rw [if_pos hskip]
      have h2 := ih { fs := st.fs, connOpen := st.connOpen, buffer := [] } rfl
      rw [h2, hfilter]
      simp [consEntries, hfilter]
    · have hkeep : (! (pyStrip (r.output c)).isEmpty) = true := by
        simp [List.isEmpty_iff, hskip]
      have hfilter : (c :: cs).filter (fun c => ! (pyStrip (r.output c)).isEmpty) =
          c :: cs.filter (fun c => ! (pyStrip (r.output c)).isEmpty) := by
        simp [List.filter_cons, hkeep]
      simp only [runCommands, hb, List.nil_append]
      rw [if_neg hskip]
      have h2 := ih { fs := fsAppend (writeSnapshot st.fs ticket host c hct (r.output c)) cp (consolidatedEntry c (r.output c)), connOpen := st.connOpen, buffer := [] } rfl
      rw [h2]
      have hfs : fsAppend (writeSnapshot st.fs ticket host c hct (r.output c)) cp (consolidatedEntry c (r.output c)) cp =
          some ((st.fs cp).getD [] ++ consolidatedEntry c (r.output c)) := by
        have hw : writeSnapshot st.fs ticket host c hct (r.output c) cp = st.fs cp := by
          simp [writeSnapshot, fsWrite, hcp c]
        simp [fsAppend, hw]
      by_cases hrest : (cs.filter (fun c => ! (pyStrip (r.output c)).isEmpty)).isEmpty
      · rw [if_pos hrest]
        rw [hfilter]
        have hnil : cs.filter (fun c => ! (pyStrip (r.output c)).isEmpty) = [] :=
          List.isEmpty_iff.mp hrest
        simp [hfs, consEntries, hnil, hfilter, List.filter_cons, hkeep]
      · rw [if_neg hrest]
        rw [hfilter]
        have hne : ((c :: cs.filter (fun c => ! (pyStrip (r.output c)).isEmpty)).isEmpty) = false := rfl
        rw [hne]
        simp only [hfs, Option.getD_some]
        simp [consEntries, List.filter_cons, hkeep, List.append_assoc]

/-- Consolidated-file contents after a full successful `ssh_command` run:
prior contents (none for a fresh file) followed by the batch entries. -/
theorem ssh_command_consolidated (r : Remote) (host ticket hct cp : Text)
    (cs : List Text) (st : St)
    (hcf : consolidated_file ticket host hct = some cp)
    (hc : r.connect = ConnectResult.ok) (hs : r.shellActive = true) :
    (ssh_command r host cs ticket hct st).2.fs cp =
      if (cs.filter (fun c => ! (pyStrip (r.output c)).isEmpty)).isEmpty
      then st.fs cp
      else some ((st.fs cp).getD [] ++ consEntries r cs) := by
  have hcp := fun c => consolidated_ne_snapshot hcf c hct
  have h2 := runCommands_consolidated r ticket host hct cp hcp cs
    { fs := st.fs, connOpen := true, buffer := [] } rfl
  simp only [ssh_command, hc, hcf, hs, if_true]
  exact h2

/-- A fresh state: empty filesystem, no open connection, drained buffer. -/
def stFresh : St := { fs := fun _ => none, connOpen := false, buffer := [] }

/-- A remote that connects, has an active shell, and answers every command
with a whitespace-only output. -/
def rBlank : Remote :=
  { connect := ConnectResult.ok, shellActive := true, output := fun _ => " ".data }

/-- A remote that connects, has an active shell, and answers every command
with the output `x` plus newline. -/
def rOut : Remote :=
  { connect := ConnectResult.ok, shellActive := true, output := fun _ => "x\n".data }

/-- C8 as stated is false: a successful pre-phase run over the one-command
batch `["c"]` on a remote whose output is whitespace-only leaves no
consolidated file at all — the file holds no header for command `c`,
although `c` is a command of the batch. -/
theorem consolidated_omits_empty_output_command :
    (ssh_command rBlank "h".data ["c".data] "T".data "pre".data stFresh).1 =
      none ∧
    (ssh_command rBlank "h".data ["c".data] "T".data "pre".data stFresh).2.fs
        (pathJoin "T".data ("h".data ++ ".precheck".data)) = none := by
  exact ⟨rfl, rfl⟩

/-- C8 (amended): the consolidated per-host file for a phase holds, for
each command of the batch whose captured output does not strip to empty,
in original command order, the header identifying the command followed by
its captured text and the separator — and nothing at all (no file) when
every command of the batch had empty output. -/
theorem consolidated_is_ordered_entries :
    ∀ (r : Remote) (host ticket hct cp : Text) (cs : List Text) (st : St),
      consolidated_file ticket host hct = some cp →
      r.connect = ConnectResult.ok → r.shellActive = true →
      st.fs cp = none →
      (ssh_command r host cs ticket hct st).2.fs cp =
        if (cs.filter (fun c => ! (pyStrip (r.output c)).isEmpty)).isEmpty
        then none
        else some (consEntries r cs) := by
  intro r host ticket hct cp cs st hcf hc hs hfs0
  rw [ssh_command_consolidated r host ticket hct cp cs st hcf hc hs, hfs0]
  simp

/-- Instance of `consolidated_is_ordered_entries`: a fresh run over the
batch `["c"]` with non-empty outputs yields exactly the one ordered entry. -/
theorem consolidated_is_ordered_entries_w :
    consolidated_file "T".data "h".data "pre".data =
      some (pathJoin "T".data ("h".data ++ ".precheck".data)) ∧
    rOut.connect = ConnectResult.ok ∧
    rOut.shellActive = true ∧
    stFresh.fs (pathJoin "T".data ("h".data ++ ".precheck".data)) = none ∧
    (ssh_command rOut "h".data ["c".data] "T".data "pre".data stFresh).2.fs
        (pathJoin "T".data ("h".data ++ ".precheck".data)) =
      if ((["c".data] : List Text).filter
            (fun c => ! (pyStrip (rOut.output c)).isEmpty)).isEmpty
      then none
      else some (consEntries rOut ["c".data]) :=
  ⟨by decide, by decide, by decide, by decide,
    consolidated_is_ordered_entries rOut "h".data "T".data "pre".data
      (pathJoin "T".data ("h".data ++ ".precheck".data)) ["c".data] stFresh
      (by decide) (by decide) (by decide) (by decide)⟩

/-- C10: the consolidated file is opened in append mode for each write, so
re-running the same (host, phase) batch appends the second run's headers
and outputs after the first run's content instead of replacing it. -/
theorem consolidated_appends_across_runs :
    ∀ (r : Remote) (host ticket hct cp : Text) (cs : List Text) (st : St),
      consolidated_file ticket host hct = some cp →
      r.connect = ConnectResult.ok → r.shellActive = true →
      st.fs cp = none →
      ((cs.filter (fun c => ! (pyStrip (r.output c)).isEmpty)).isEmpty = false) →
      (ssh_command r host cs ticket hct st).2.fs cp =
        some (consEntries r cs) ∧
      (ssh_command r host cs ticket hct
          (ssh_command r host cs ticket hct st).2).2.fs cp =
        some (consEntries r cs ++ consEntries r cs) := by
  intro r host ticket hct cp cs st hcf hc hs hfs0 hne
  have h1 := ssh_command_consolidated r host ticket hct cp cs st hcf hc hs
  rw [hfs0, hne] at h1
  simp only [Bool.false_eq_true, if_false, Option.getD_none, List.nil_append] at h1
  have h2 := ssh_command_consolidated r host ticket hct cp cs
    (ssh_command r host cs ticket hct st).2 hcf hc hs
  rw [h1, hne] at h2
  simp only [Bool.false_eq_true, if_false, Option.getD_some] at h2
  exact ⟨h1, h2⟩

/-- Instance of `consolidated_appends_across_runs` on the batch `["c"]`
with output `x` plus newline: the second run doubles the content. -/
theorem consolidated_appends_across_runs_w :
    consolidated_file "T".data "h".data "pre".data =
      some (pathJoin "T".data ("h".data ++ ".precheck".data)) ∧
    rOut.connect = ConnectResult.ok ∧
    rOut.shellActive = true ∧
    stFresh.fs (pathJoin "T".data ("h".data ++ ".precheck".data)) = none ∧
    ((["c".data] : List Text).filter
        (fun c => ! (pyStrip (rOut.output c)).isEmpty)).isEmpty = false ∧
    ((ssh_command rOut "h".data ["c".data] "T".data "pre".data stFresh).2.fs
          (pathJoin "T".data ("h".data ++ ".precheck".data)) =
        some (consEntries rOut ["c".data]) ∧
      (ssh_command rOut "h".data ["c".data] "T".data "pre".data
          (ssh_command rOut "h".data ["c".data] "T".data "pre".data
            stFresh).2).2.fs
          (pathJoin "T".data ("h".data ++ ".precheck".data)) =
        some (consEntries rOut ["c".data] ++ consEntries rOut ["c".data])) :=
  ⟨by decide, by decide, by decide, by decide, by decide,
    consolidated_appends_across_runs rOut "h".data "T".data "pre".data
      (pathJoin "T".data ("h".data ++ ".precheck".data)) ["c".data] stFresh
      (by decide) (by decide) (by decide) (by decide) (by decide)⟩

/-- C6 as stated is false: for a command whose captured output is
whitespace-only, nothing is recorded in the snapshot store — the run
succeeds, yet the per-command snapshot file for that command does not
exist afterwards (no placeholder value). -/
theorem empty_output_not_recorded :
    pyStrip " ".data = [] ∧
    (ssh_command rBlank "h".data ["c".data] "T".data "pre".data stFresh).1 =
      none ∧
    (ssh_command rBlank "h".data ["c".data] "T".data "pre".data stFresh).2.fs
        (snapshot_file "T".data "h".data "c".data "pre".data) = none := by
  exact ⟨by decide, rfl, by decide⟩

/-- C6 (amended): a captured text that strips to empty is not treated as
an error — the warning is only logged, the command is skipped without any
snapshot write or consolidated entry, and the loop continues with the
remaining commands of the batch from the same state (buffer drained). -/
theorem empty_output_skipped :
    ∀ (r : Remote) (ticket host hct : Text) (co : Option Text) (c : Text)
      (cs : List Text) (st : St),
      pyStrip (st.buffer ++ r.output c) = [] →
      (runCommands r ticket host hct co st (c :: cs)).1 =
        (runCommands r ticket host hct co { st with buffer := [] } cs).1 ∧
      (runCommands r ticket host hct co st (c :: cs)).2 =
        (st.buffer ++ r.output c) ::
          (runCommands r ticket host hct co { st with buffer := [] } cs).2 := by
  intro r ticket host hct co c cs st h
  simp only [runCommands]
  rw [if_pos h]
  exact ⟨rfl, rfl⟩

/-- Instance of `empty_output_skipped`: on a whitespace-only output the
loop writes nothing for the command and proceeds with the rest. -/
theorem empty_output_skipped_w :
    pyStrip (stFresh.buffer ++ rBlank.output "c".data) = [] ∧
    ((runCommands rBlank "T".data "h".data "pre".data none stFresh
          ["c".data, "d".data]).1 =
        (runCommands rBlank "T".data "h".data "pre".data none
          { stFresh with buffer := [] } ["d".data]).1 ∧
      (runCommands rBlank "T".data "h".data "pre".data none stFresh
          ["c".data, "d".data]).2 =
        (stFresh.buffer ++ rBlank.output "c".data) ::
          (runCommands rBlank "T".data "h".data "pre".data none
            { stFresh with buffer := [] } ["d".data]).2) :=
  ⟨by decide,
    empty_output_skipped rBlank "T".data "h".data "pre".data none "c".data
      ["d".data] stFresh (by decide)⟩
